import Mathlib

set_option maxRecDepth 100000

/-!
Shallow embedding of the aws-iot-device-sdk-rust topic codec library.

Strings are modelled as `List Char` (all topics relevant to the claims are
ASCII, so char count coincides with Rust's byte length).  Rust panics
(`ArrayString::push_str` capacity overflow, `Option::unwrap`,
`ArrayVec` `collect` overflow, `%` by zero) are modelled by the `PanicOr`
wrapper, and `usize` additions wrap modulo `2^64` as in a release build.
-/

/-- Outcome of a Rust computation that may panic. -/
inductive PanicOr (α : Type) where
  | panics : PanicOr α
  | ret : α → PanicOr α
deriving DecidableEq, Repr

/-- Models `str::strip_prefix`: remove a leading literal, or fail. -/
def stripPre : List Char → List Char → Option (List Char)
  | [], s => some s
  | _ :: _, [] => none
  | p :: ps, c :: cs => if p = c then stripPre ps cs else none

/-- Models `s.find('/')` followed by `s.split_at(mid)`: the part before the
first slash and the part from the slash on (the slash included). -/
def splitAtSlash : List Char → Option (List Char × List Char)
  | [] => none
  | c :: cs =>
    if c = '/' then some ([], c :: cs)
    else
      match splitAtSlash cs with
      | none => none
      | some (a, b) => some (c :: a, b)

/-- Models `str::split('/')`: the list of `/`-separated segments (empty
segments included; never returns an empty list). -/
def splitSlash : List Char → List (List Char)
  | [] => [[]]
  | c :: cs =>
    if c = '/' then [] :: splitSlash cs
    else
      match splitSlash cs with
      | [] => [[c]]
      | s :: ss => (c :: s) :: ss

/-- Models `str::starts_with` on a literal. -/
def startsWith (s pre : List Char) : Bool := (stripPre pre s).isSome

/-- Models one `ArrayString::push_str` into a buffer of capacity `cap`:
panics (`none`) when the push would exceed the capacity. -/
def pushStr (cap : Nat) (acc s : List Char) : Option (List Char) :=
  if acc.length + s.length ≤ cap then some (acc ++ s) else none

/-- A sequence of `push_str` calls into the same buffer. -/
def pushAll (cap : Nat) : List Char → List (List Char) → Option (List Char)
  | acc, [] => some acc
  | acc, p :: ps =>
    match pushStr cap acc p with
    | none => none
    | some acc' => pushAll cap acc' ps

/-! ## common.rs -/

def MQTT_TOPIC_LENGTH_MAX : Nat := 65535
def THINGNAME_MAX_LENGTH : Nat := 128
def SHADOW_NAME_LENGTH_MAX : Nat := 64
def JOBID_MAX_LENGTH : Nat := 64

def TUNNEL_TOPIC_MAX_LENGTH : Nat := THINGNAME_MAX_LENGTH + 32
def DEFENDER_TOPIC_MAX_LENGTH : Nat := THINGNAME_MAX_LENGTH + 32
def JOBS_TOPIC_MAX_LENGTH : Nat := THINGNAME_MAX_LENGTH + JOBID_MAX_LENGTH + 32
def SHADOW_TOPIC_MAX_LENGTH : Nat := THINGNAME_MAX_LENGTH + SHADOW_NAME_LENGTH_MAX + 32

def AWS_THINGS_PREFIX : List Char := "$aws/things/".toList

/-- Short alias for the topic prefix literal. -/
def PRE : List Char := AWS_THINGS_PREFIX

def SUFFIX_ACCEPTED : List Char := "/accepted".toList
def SUFFIX_REJECTED : List Char := "/rejected".toList
def ACCEPTED : List Char := "accepted".toList
def REJECTED : List Char := "rejected".toList

inductive Error where
  | FAIL
  | MqttTopicFailed
  | ThingnameParseFailed
  | MessageTypeParseFailed
  | RootParseFailed
  | ShadownameParseFailed
  | JobsIdParseFailed
  | NoMatch
deriving DecidableEq, Repr

/-- Source `is_valid_param` from common.rs. -/
def is_valid_param (s : List Char) (maxLen : Nat) : Except Error Unit :=
  if s ≠ [] ∧ s.length < maxLen then .ok () else .error .FAIL

/-- Source `is_valid_mqtt_topic` from common.rs. -/
def is_valid_mqtt_topic (t : List Char) : Except Error Unit :=
  match is_valid_param t MQTT_TOPIC_LENGTH_MAX with
  | .ok _ => .ok ()
  | .error _ => .error .MqttTopicFailed

/-- Source `is_valid_prefix` from common.rs. -/
def is_valid_prefix (s pre : List Char) : Except Error (List Char) :=
  match stripPre pre s with
  | some r => .ok r
  | none => .error .NoMatch

/-- The character alphabet accepted by `is_valid_name` in common.rs. -/
def nameChar (c : Char) : Bool :=
  if c = '-' ∨ c = '_' ∨ ('0' ≤ c ∧ c ≤ '9') ∨ ('A' ≤ c ∧ c ≤ 'Z') ∨
      ('a' ≤ c ∧ c ≤ 'z') ∨ c = ':' then true else false

/-- Source `is_valid_name` from common.rs. -/
def is_valid_name (name : List Char) (len : Nat) : Except Error Unit :=
  match is_valid_param name len with
  | .error e => .error e
  | .ok _ => if name.all nameChar then .ok () else .error .FAIL

/-- Source `is_valid_thing_name` from common.rs. -/
def is_valid_thing_name (n : List Char) : Except Error Unit :=
  match is_valid_name n THINGNAME_MAX_LENGTH with
  | .ok _ => .ok ()
  | .error _ => .error .ThingnameParseFailed

/-- Source `is_valid_shadow_name` from common.rs. -/
def is_valid_shadow_name (n : List Char) : Except Error Unit :=
  match is_valid_name n SHADOW_NAME_LENGTH_MAX with
  | .ok _ => .ok ()
  | .error _ => .error .ShadownameParseFailed

/-- Source `is_valid_bridge` from common.rs. -/
def is_valid_bridge (s bridge : List Char) : Except Error (List Char) :=
  match stripPre bridge s with
  | some r => .ok r
  | none => .error .RootParseFailed

/-- The character alphabet accepted by `is_valid_job_id` in common.rs. -/
def jobChar (c : Char) : Bool :=
  if c = '-' ∨ c = '_' ∨ ('0' ≤ c ∧ c ≤ '9') ∨ ('A' ≤ c ∧ c ≤ 'Z') ∨
      ('a' ≤ c ∧ c ≤ 'z') then true else false

/-- Source `is_valid_job_id` from common.rs.  Note that the length check
propagates the generic `FAIL` error unchanged. -/
def is_valid_job_id (id : List Char) : Except Error Unit :=
  match is_valid_param id JOBID_MAX_LENGTH with
  | .error e => .error e
  | .ok _ => if id.all jobChar then .ok () else .error .JobsIdParseFailed

/-- Modelled from the spec: the per-protocol bridge-segment literals
(`SHADOW_API_BRIDGE`, `NAMED_SHADOW_API_BRIDGE`, `JOBS_API_BRIDGE`,
`DEFENDER_API_BRIDGE`, `TUNNELS_API_BRIDGE`) are referenced by the
source modules but their defining declarations are not among the
provided source files.  Their values follow the spec's wire format
(`$aws/things/<name>/shadow/...`, `.../shadow/name/...`, `.../jobs/...`,
`.../defender/metrics/...`, `.../tunnels/...`) and are pinned by the
in-repo tests. -/
def SHADOW_API_BRIDGE : List Char := "/shadow/".toList

/-- Modelled from the spec: see `SHADOW_API_BRIDGE`. -/
def NAMED_SHADOW_API_BRIDGE : List Char := "/shadow/name/".toList

/-- Modelled from the spec: see `SHADOW_API_BRIDGE`. -/
def JOBS_API_BRIDGE : List Char := "/jobs/".toList

/-- Modelled from the spec: see `SHADOW_API_BRIDGE`. -/
def DEFENDER_API_BRIDGE : List Char := "/defender/metrics/".toList

/-- Modelled from the spec: see `SHADOW_API_BRIDGE`. -/
def TUNNELS_API_BRIDGE : List Char := "/tunnels/".toList

/-- The validation prelude shared verbatim by the four `match_topic`
functions: mqtt-topic check, `$aws/things/` strip, thing-name split and
validation, bridge strip.  `findErr` is the error each module attaches to
a missing `/` after the thing name (`NoMatch` for shadow, `FAIL` for
jobs/defender/tunneling). -/
def topicPrelude (findErr : Error) (bridge topic : List Char) :
    Except Error (List Char × List Char) :=
  match is_valid_mqtt_topic topic with
  | .error e => .error e
  | .ok _ =>
    match is_valid_prefix topic AWS_THINGS_PREFIX with
    | .error e => .error e
    | .ok s =>
      match splitAtSlash s with
      | none => .error findErr
      | some (thing_name, s) =>
        match is_valid_thing_name thing_name with
        | .error e => .error e
        | .ok _ =>
          match is_valid_bridge s bridge with
          | .error e => .error e
          | .ok s => .ok (thing_name, s)

/-! ## shadow.rs -/

namespace shadow

def OP_GET : List Char := "get".toList
def OP_DELETE : List Char := "delete".toList
def OP_UPDATE : List Char := "update".toList
def SUFFIX_DOCUMENTS : List Char := "/documents".toList
def SUFFIX_DELTA : List Char := "/delta".toList

inductive Topic where
  | Get | GetAccepted | GetRejected
  | Delete | DeleteAccepted | DeleteRejected
  | Update | UpdateAccepted | UpdateRejected | UpdateDocuments | UpdateDelta
deriving DecidableEq, Repr

structure ThingShadow where
  thing_name : List Char
  shadow_name : Option (List Char)
  shadow_op : Topic
deriving DecidableEq, Repr

def op : Topic → List Char
  | .Get | .GetAccepted | .GetRejected => OP_GET
  | .Delete | .DeleteAccepted | .DeleteRejected => OP_DELETE
  | .Update | .UpdateAccepted | .UpdateRejected | .UpdateDocuments | .UpdateDelta => OP_UPDATE

def suffix : Topic → List Char
  | .GetAccepted | .DeleteAccepted | .UpdateAccepted => SUFFIX_ACCEPTED
  | .GetRejected | .DeleteRejected | .UpdateRejected => SUFFIX_REJECTED
  | .UpdateDocuments => SUFFIX_DOCUMENTS
  | .UpdateDelta => SUFFIX_DELTA
  | _ => []

/-- Source `shadow::assemble_topic`.  The `ArrayString<SHADOW_TOPIC_MAX_LENGTH>`
buffer is modelled by `pushAll`; a capacity overflow is a panic. -/
def assemble_topic (topic_type : Topic) (thing_name : List Char)
    (named : Option (List Char)) : PanicOr (Except Error (List Char)) :=
  match is_valid_thing_name thing_name with
  | .error e => .ret (.error e)
  | .ok _ =>
    match named with
    | none =>
      match pushAll SHADOW_TOPIC_MAX_LENGTH []
          [PRE, thing_name, SHADOW_API_BRIDGE, op topic_type, suffix topic_type] with
      | none => .panics
      | some s => .ret (.ok s)
    | some shadow_name =>
      match is_valid_shadow_name shadow_name with
      | .error e => .ret (.error e)
      | .ok _ =>
        match pushAll SHADOW_TOPIC_MAX_LENGTH []
            [PRE, thing_name, NAMED_SHADOW_API_BRIDGE, shadow_name, "/".toList,
              op topic_type, suffix topic_type] with
        | none => .panics
        | some s => .ret (.ok s)

def find_message_type (opk : List Char) (sfx : Option (List Char)) :
    Except Error Topic :=
  if opk = OP_GET ∧ sfx = none then .ok .Get
  else if opk = OP_GET ∧ sfx = some ACCEPTED then .ok .GetAccepted
  else if opk = OP_GET ∧ sfx = some REJECTED then .ok .GetRejected
  else if opk = OP_DELETE ∧ sfx = none then .ok .Delete
  else if opk = OP_DELETE ∧ sfx = some ACCEPTED then .ok .DeleteAccepted
  else if opk = OP_DELETE ∧ sfx = some REJECTED then .ok .DeleteRejected
  else if opk = OP_UPDATE ∧ sfx = none then .ok .Update
  else if opk = OP_UPDATE ∧ sfx = some ACCEPTED then .ok .UpdateAccepted
  else if opk = OP_UPDATE ∧ sfx = some REJECTED then .ok .UpdateRejected
  else if opk = OP_UPDATE ∧ sfx = some ("documents".toList) then .ok .UpdateDocuments
  else if opk = OP_UPDATE ∧ sfx = some ("delta".toList) then .ok .UpdateDelta
  else .error .MessageTypeParseFailed

/-- The segment dispatch of `shadow::match_topic` (the `match v[..]`).
Collecting more than 16 segments into the `ArrayVec<&str, 16>` panics. -/
def shadowDispatch (thing_name : List Char) (v : List (List Char)) :
    PanicOr (Except Error ThingShadow) :=
  if v.length ≤ 16 then
    match v with
    | [_named, shadow_name, opk, sfx] =>
      match is_valid_shadow_name shadow_name with
      | .error e => .ret (.error e)
      | .ok _ =>
        match find_message_type opk (some sfx) with
        | .error e => .ret (.error e)
        | .ok t => .ret (.ok ⟨thing_name, some shadow_name, t⟩)
    | [_named, shadow_name, opk] =>
      match is_valid_shadow_name shadow_name with
      | .error e => .ret (.error e)
      | .ok _ =>
        match find_message_type opk none with
        | .error e => .ret (.error e)
        | .ok t => .ret (.ok ⟨thing_name, some shadow_name, t⟩)
    | [opk, sfx] =>
      match find_message_type opk (some sfx) with
      | .error e => .ret (.error e)
      | .ok t => .ret (.ok ⟨thing_name, none, t⟩)
    | [opk] =>
      match find_message_type opk none with
      | .error e => .ret (.error e)
      | .ok t => .ret (.ok ⟨thing_name, none, t⟩)
    | _ => .ret (.error .NoMatch)
  else .panics

/-- Source `shadow::match_topic`. -/
def match_topic (topic : List Char) : PanicOr (Except Error ThingShadow) :=
  match topicPrelude .NoMatch SHADOW_API_BRIDGE topic with
  | .error e => .ret (.error e)
  | .ok (thing_name, s) => shadowDispatch thing_name (splitSlash s)

end shadow

/-! ## jobs.rs -/

namespace jobs

def API_JOBSCHANGED : List Char := "notify".toList
def API_NEXTJOBCHANGED : List Char := "notify-next".toList
def API_GETPENDING : List Char := "get".toList
def API_STARTNEXT : List Char := "start-next".toList
def API_DESCRIBE : List Char := "get".toList
def API_UPDATE : List Char := "update".toList
def API_JOBID_NEXT : List Char := "$next".toList

inductive Topic where
  | JobsChanged | NextJobChanged
  | GetPendingSuccess | GetPendingFailed
  | StartNextSuccess | StartNextFailed
  | DescribeSuccess | DescribeFailed
  | UpdateSuccess | UpdateFailed
deriving DecidableEq, Repr

structure ThingJobs where
  thing_name : List Char
  api : Topic
  id : Option (List Char)
deriving DecidableEq, Repr

def id : Topic → List Char
  | .DescribeSuccess | .DescribeFailed | .UpdateSuccess | .UpdateFailed => "+/".toList
  | _ => []

def op : Topic → List Char
  | .JobsChanged => API_JOBSCHANGED
  | .NextJobChanged => API_NEXTJOBCHANGED
  | .GetPendingSuccess => API_GETPENDING
  | .GetPendingFailed => API_GETPENDING
  | .StartNextSuccess => API_STARTNEXT
  | .StartNextFailed => API_STARTNEXT
  | .DescribeSuccess => API_DESCRIBE
  | .DescribeFailed => API_DESCRIBE
  | .UpdateSuccess => API_UPDATE
  | .UpdateFailed => API_UPDATE

def suffix : Topic → List Char
  | .GetPendingSuccess | .StartNextSuccess | .DescribeSuccess | .UpdateSuccess =>
    SUFFIX_ACCEPTED
  | .GetPendingFailed | .StartNextFailed | .DescribeFailed | .UpdateFailed =>
    SUFFIX_REJECTED
  | _ => []

/-- Source `jobs::get_topic` (buffer `ArrayString<JOBS_TOPIC_MAX_LENGTH>`). -/
def get_topic (thing_name : List Char) (api : Topic) :
    PanicOr (Except Error (List Char)) :=
  match is_valid_thing_name thing_name with
  | .error e => .ret (.error e)
  | .ok _ =>
    match pushAll JOBS_TOPIC_MAX_LENGTH []
        [PRE, thing_name, JOBS_API_BRIDGE, id api, op api, suffix api] with
    | none => .panics
    | some s => .ret (.ok s)

/-- Source `ArrayString::<JOBID_MAX_LENGTH>::from(id).unwrap()` in
`jobs::match_topic`: panics when the segment exceeds the capacity. -/
def jobsId (thing_name : List Char) (api : Topic) (jid : List Char) :
    PanicOr (Except Error ThingJobs) :=
  if jid.length ≤ JOBID_MAX_LENGTH then .ret (.ok ⟨thing_name, api, some jid⟩)
  else .panics

/-- The segment dispatch of `jobs::match_topic`. -/
def jobsDispatch (thing_name : List Char) (v : List (List Char)) :
    PanicOr (Except Error ThingJobs) :=
  if v.length ≤ 16 then
    match v with
    | [opk] =>
      if opk = API_JOBSCHANGED then .ret (.ok ⟨thing_name, .JobsChanged, none⟩)
      else .ret (.ok ⟨thing_name, .NextJobChanged, none⟩)
    | [opk, sfx] =>
      if opk = API_GETPENDING ∧ sfx = ACCEPTED then
        .ret (.ok ⟨thing_name, .GetPendingSuccess, none⟩)
      else if opk = API_GETPENDING ∧ sfx = REJECTED then
        .ret (.ok ⟨thing_name, .GetPendingFailed, none⟩)
      else if opk = API_STARTNEXT ∧ sfx = ACCEPTED then
        .ret (.ok ⟨thing_name, .StartNextSuccess, none⟩)
      else if opk = API_STARTNEXT ∧ sfx = REJECTED then
        .ret (.ok ⟨thing_name, .StartNextFailed, none⟩)
      else .ret (.error .NoMatch)
    | [jid, opk, sfx] =>
      if opk = API_DESCRIBE ∧ sfx = ACCEPTED then jobsId thing_name .DescribeSuccess jid
      else if opk = API_DESCRIBE ∧ sfx = REJECTED then jobsId thing_name .DescribeFailed jid
      else if opk = API_UPDATE ∧ sfx = ACCEPTED then jobsId thing_name .UpdateSuccess jid
      else if opk = API_UPDATE ∧ sfx = REJECTED then jobsId thing_name .UpdateFailed jid
      else .ret (.error .NoMatch)
    | _ => .ret (.error .NoMatch)
  else .panics

/-- Source `jobs::match_topic`. -/
def match_topic (topic : List Char) : PanicOr (Except Error ThingJobs) :=
  match topicPrelude .FAIL JOBS_API_BRIDGE topic with
  | .error e => .ret (.error e)
  | .ok (thing_name, s) => jobsDispatch thing_name (splitSlash s)

/-- Source `jobs::get_pending` (buffer `ArrayString<THINGNAME_MAX_LENGTH>`). -/
def get_pending (thing_name : List Char) : PanicOr (Except Error (List Char)) :=
  match is_valid_thing_name thing_name with
  | .error e => .ret (.error e)
  | .ok _ =>
    match pushAll THINGNAME_MAX_LENGTH []
        [PRE, thing_name, JOBS_API_BRIDGE, API_GETPENDING] with
    | none => .panics
    | some s => .ret (.ok s)

/-- Source `jobs::start_next` (buffer `ArrayString<THINGNAME_MAX_LENGTH>`). -/
def start_next (thing_name : List Char) : PanicOr (Except Error (List Char)) :=
  match is_valid_thing_name thing_name with
  | .error e => .ret (.error e)
  | .ok _ =>
    match pushAll THINGNAME_MAX_LENGTH []
        [PRE, thing_name, JOBS_API_BRIDGE, API_STARTNEXT] with
    | none => .panics
    | some s => .ret (.ok s)

/-- Source `jobs::describe` (buffer `ArrayString<THINGNAME_MAX_LENGTH>`). -/
def describe (thing_name jid : List Char) : PanicOr (Except Error (List Char)) :=
  match is_valid_thing_name thing_name with
  | .error e => .ret (.error e)
  | .ok _ =>
    match (if jid ≠ API_JOBID_NEXT then is_valid_job_id jid else .ok ()) with
    | .error e => .ret (.error e)
    | .ok _ =>
      match pushAll THINGNAME_MAX_LENGTH []
          [PRE, thing_name, JOBS_API_BRIDGE, jid, "/".toList, API_DESCRIBE] with
      | none => .panics
      | some s => .ret (.ok s)

/-- Source `jobs::update` (buffer `ArrayString<THINGNAME_MAX_LENGTH>`). -/
def update (thing_name jid : List Char) : PanicOr (Except Error (List Char)) :=
  match is_valid_thing_name thing_name with
  | .error e => .ret (.error e)
  | .ok _ =>
    match is_valid_job_id jid with
    | .error e => .ret (.error e)
    | .ok _ =>
      match pushAll THINGNAME_MAX_LENGTH []
          [PRE, thing_name, JOBS_API_BRIDGE, jid, "/".toList, API_UPDATE] with
      | none => .panics
      | some s => .ret (.ok s)

end jobs

/-! ## defender.rs -/

namespace defender

def API_BRIDGE : List Char := "/defender/metrics/".toList
def API_JSON_FORMAT : List Char := "json".toList
def API_CBOR_FORMAT : List Char := "cbor".toList

inductive Topic where
  | JsonReportPublish | JsonReportAccepted | JsonReportRejected
  | CborReportPublish | CborReportAccepted | CborReportRejected
deriving DecidableEq, Repr

structure ThingDefender where
  thing_name : List Char
  api : Topic
deriving DecidableEq, Repr

def op : Topic → List Char
  | .JsonReportPublish | .JsonReportAccepted | .JsonReportRejected => API_JSON_FORMAT
  | .CborReportPublish | .CborReportAccepted | .CborReportRejected => API_CBOR_FORMAT

def suffix : Topic → List Char
  | .JsonReportAccepted | .CborReportAccepted => SUFFIX_ACCEPTED
  | .JsonReportRejected | .CborReportRejected => SUFFIX_REJECTED
  | _ => []

/-- Source `defender::get_topic` (buffer `ArrayString<DEFENDER_TOPIC_MAX_LENGTH>`). -/
def get_topic (thing_name : List Char) (api : Topic) :
    PanicOr (Except Error (List Char)) :=
  match is_valid_thing_name thing_name with
  | .error e => .ret (.error e)
  | .ok _ =>
    match pushAll DEFENDER_TOPIC_MAX_LENGTH []
        [PRE, thing_name, API_BRIDGE, op api, suffix api] with
    | none => .panics
    | some s => .ret (.ok s)

/-- The segment dispatch of `defender::match_topic`. -/
def defenderDispatch (thing_name : List Char) (v : List (List Char)) :
    PanicOr (Except Error ThingDefender) :=
  if v.length ≤ 16 then
    match v with
    | [opk, sfx] =>
      if opk = API_JSON_FORMAT ∧ sfx = ACCEPTED then
        .ret (.ok ⟨thing_name, .JsonReportAccepted⟩)
      else if opk = API_JSON_FORMAT ∧ sfx = REJECTED then
        .ret (.ok ⟨thing_name, .JsonReportRejected⟩)
      else if opk = API_CBOR_FORMAT ∧ sfx = ACCEPTED then
        .ret (.ok ⟨thing_name, .CborReportAccepted⟩)
      else if opk = API_CBOR_FORMAT ∧ sfx = REJECTED then
        .ret (.ok ⟨thing_name, .CborReportRejected⟩)
      else .ret (.error .NoMatch)
    | _ => .ret (.error .NoMatch)
  else .panics

/-- Source `defender::match_topic`. -/
def match_topic (topic : List Char) : PanicOr (Except Error ThingDefender) :=
  match topicPrelude .FAIL API_BRIDGE topic with
  | .error e => .ret (.error e)
  | .ok (thing_name, s) => defenderDispatch thing_name (splitSlash s)

end defender

/-! ## tunneling.rs -/

namespace tunneling

def API_CHANGED : List Char := "notify".toList

/-- Source `tunneling::match_topic`. -/
def match_topic (topic : List Char) : Except Error Unit :=
  match topicPrelude .FAIL TUNNELS_API_BRIDGE topic with
  | .error e => .error e
  | .ok (_, s) => if s = API_CHANGED then .ok () else .error .NoMatch

end tunneling

/-! ## lib.rs -/

inductive TopicType where
  | Other | NamedShadow | Shadow | Jobs | Defender | Tunneling
deriving DecidableEq, Repr

/-- Source `match_topic_type` from lib.rs: the protocol classifier. -/
def match_topic_type (topic : List Char) : Except Error TopicType :=
  match is_valid_mqtt_topic topic with
  | .error e => .error e
  | .ok _ =>
    match is_valid_prefix topic AWS_THINGS_PREFIX with
    | .error e => .error e
    | .ok s =>
      match splitAtSlash s with
      | none => .error .NoMatch
      | some (thing_name, s) =>
        match is_valid_thing_name thing_name with
        | .error e => .error e
        | .ok _ =>
          if startsWith s NAMED_SHADOW_API_BRIDGE then .ok .NamedShadow
          else if startsWith s SHADOW_API_BRIDGE then .ok .Shadow
          else if startsWith s JOBS_API_BRIDGE then .ok .Jobs
          else if startsWith s DEFENDER_API_BRIDGE then .ok .Defender
          else if startsWith s TUNNELS_API_BRIDGE then .ok .Tunneling
          else .error .NoMatch

/-! ## backoff_algo.rs -/

/-- The modulus of 64-bit `usize` arithmetic: additions wrap modulo this
value (release semantics; a debug build panics at the same overflow
point). -/
def USIZE_MOD : Nat := 2 ^ 64

structure BackoffAlgorithm where
  max : Nat
  base : Nat
  power : Nat
  value : Nat
  rand : Option Nat
deriving DecidableEq, Repr

/-- Source `BackoffAlgorithm::new`. -/
def BackoffAlgorithm.new (base max : Nat) (rand : Option Nat) : BackoffAlgorithm :=
  { max := max, base := base, power := base, value := base, rand := rand }

/-- Source `BackoffAlgorithm::get`. -/
def BackoffAlgorithm.get (b : BackoffAlgorithm) : Nat := b.value

/-- Source `Iterator::next` for `BackoffAlgorithm`.  In Rust `%` panics when
the divisor is zero, so the step panics when `power = 0`.  The `usize`
additions (`power + jitter` and `power += power`) wrap modulo `2^64`
(release semantics; a debug build panics at the same overflow point), so
`power` wraps to zero once the doubling overflows. -/
def BackoffAlgorithm.next (b : BackoffAlgorithm) :
    PanicOr (Option Nat × BackoffAlgorithm) :=
  if b.power = 0 then .panics
  else
    let value := (b.power + b.rand.getD 0 % b.power) % USIZE_MOD
    let b' := { b with value := value, power := (b.power + b.power) % USIZE_MOD }
    .ret (if value ≤ b.max then some value else none, b')

/-- Source `k` consecutive `next` calls, threading panics. -/
def iterateB : Nat → BackoffAlgorithm → PanicOr BackoffAlgorithm
  | 0, b => .ret b
  | k + 1, b =>
    match b.next with
    | .panics => .panics
    | .ret (_, b') => iterateB k b'

/-! ## Spec-side definitions (for refinement statements) -/

/-- The thing/shadow-name alphabet as worded by the spec:
`[A-Za-z0-9_:-]`. -/
@[reducible]
def specNameAlphabet (c : Char) : Prop :=
  c = '-' ∨ c = '_' ∨ ('0' ≤ c ∧ c ≤ '9') ∨ ('A' ≤ c ∧ c ≤ 'Z') ∨
    ('a' ≤ c ∧ c ≤ 'z') ∨ c = ':'

/-- The job-id alphabet as worded by the spec: `[A-Za-z0-9_-]`. -/
@[reducible]
def specJobIdAlphabet (c : Char) : Prop :=
  c = '-' ∨ c = '_' ∨ ('0' ≤ c ∧ c ≤ '9') ∨ ('A' ≤ c ∧ c ≤ 'Z') ∨
    ('a' ≤ c ∧ c ≤ 'z')

/-! ## Supporting lemmas -/

theorem stripPre_append (p r : List Char) : stripPre p (p ++ r) = some r := by
  induction p with
  | nil => rfl
  | cons a ps ih => simp [stripPre, ih]

theorem stripPre_eq_some {p s r : List Char} : stripPre p s = some r ↔ s = p ++ r := by
  induction p generalizing s with
  | nil => simp [stripPre]
  | cons a ps ih =>
    cases s with
    | nil => simp [stripPre]
    | cons c cs =>
      by_cases h : a = c
      · subst h; simp [stripPre, ih]
      · simp only [stripPre, if_neg h, List.cons_append]
        constructor
        · intro hh; cases hh
        · intro hh; exact absurd (List.cons.injEq .. ▸ hh).1.symm h

theorem splitAtSlash_append {a : List Char} (b : List Char) (h : '/' ∉ a) :
    splitAtSlash (a ++ '/' :: b) = some (a, '/' :: b) := by
  induction a with
  | nil => simp [splitAtSlash]
  | cons c cs ih =>
    simp only [List.mem_cons, not_or] at h
    simp only [List.cons_append, splitAtSlash, List.append_eq]
    rw [if_neg (fun hc => h.1 hc.symm), ih h.2]

theorem splitSlash_single {a : List Char} (h : '/' ∉ a) : splitSlash a = [a] := by
  induction a with
  | nil => rfl
  | cons c cs ih =>
    simp only [List.mem_cons, not_or] at h
    simp only [splitSlash]
    rw [if_neg (fun hc => h.1 hc.symm), ih h.2]

theorem splitSlash_append {a : List Char} (b : List Char) (h : '/' ∉ a) :
    splitSlash (a ++ '/' :: b) = a :: splitSlash b := by
  induction a with
  | nil => simp [splitSlash]
  | cons c cs ih =>
    simp only [List.mem_cons, not_or] at h
    simp only [List.cons_append, splitSlash, List.append_eq]
    rw [if_neg (fun hc => h.1 hc.symm), ih h.2]

theorem pushStr_some {cap : Nat} {acc p r : List Char}
    (h : pushStr cap acc p = some r) : r = acc ++ p ∧ r.length ≤ cap := by
  unfold pushStr at h
  split at h
  · injection h with h2
    subst h2
    exact ⟨rfl, by simpa [List.length_append] using ‹acc.length + p.length ≤ cap›⟩
  · cases h

theorem pushAll_some {cap : Nat} :
    ∀ {ps : List (List Char)} {acc s : List Char}, ps ≠ [] →
      pushAll cap acc ps = some s → s = acc ++ ps.flatten ∧ s.length ≤ cap := by
  intro ps
  induction ps with
  | nil => intro acc s h; exact absurd rfl h
  | cons p ps ih =>
    intro acc s _ hp
    unfold pushAll at hp
    cases hps : pushStr cap acc p with
    | none => rw [hps] at hp; cases hp
    | some acc' =>
      rw [hps] at hp
      obtain ⟨he, hl⟩ := pushStr_some hps
      cases ps with
      | nil =>
        unfold pushAll at hp
        injection hp with hs
        subst hs; subst he
        exact ⟨by simp, hl⟩
      | cons q qs =>
        obtain ⟨h1, h2⟩ := ih (by simp) hp
        subst he
        exact ⟨by rw [h1]; simp [List.append_assoc], h2⟩

theorem is_valid_param_ok {s : List Char} {m : Nat} :
    is_valid_param s m = .ok () ↔ (s ≠ [] ∧ s.length < m) := by
  unfold is_valid_param
  split <;> simp_all

theorem is_valid_name_ok {s : List Char} {m : Nat} :
    is_valid_name s m = .ok () ↔ (s ≠ [] ∧ s.length < m ∧ s.all nameChar) := by
  unfold is_valid_name is_valid_param
  by_cases hp : s ≠ [] ∧ s.length < m
  · rw [if_pos hp]
    show (if s.all nameChar then (Except.ok () : Except Error Unit)
      else .error .FAIL) = .ok () ↔ _
    by_cases ha : s.all nameChar
    · rw [if_pos ha]; simp [hp.1, hp.2, ha]
    · rw [if_neg ha]; simp [ha]
  · rw [if_neg hp]
    show (Except.error .FAIL : Except Error Unit) = .ok () ↔ _
    constructor
    · intro h; exact absurd h (by simp)
    · intro hh; exact absurd ⟨hh.1, hh.2.1⟩ hp

theorem is_valid_job_id_ok {s : List Char} :
    is_valid_job_id s = .ok () ↔
      (s ≠ [] ∧ s.length < JOBID_MAX_LENGTH ∧ s.all jobChar) := by
  unfold is_valid_job_id is_valid_param
  by_cases hp : s ≠ [] ∧ s.length < JOBID_MAX_LENGTH
  · rw [if_pos hp]
    show (if s.all jobChar then (Except.ok () : Except Error Unit)
      else .error .JobsIdParseFailed) = .ok () ↔ _
    by_cases ha : s.all jobChar
    · rw [if_pos ha]; simp [hp.1, hp.2, ha]
    · rw [if_neg ha]; simp [ha]
  · rw [if_neg hp]
    show (Except.error .FAIL : Except Error Unit) = .ok () ↔ _
    constructor
    · intro h; exact absurd h (by simp)
    · intro hh; exact absurd ⟨hh.1, hh.2.1⟩ hp

theorem is_valid_thing_name_ok {s : List Char} :
    is_valid_thing_name s = .ok () ↔ is_valid_name s THINGNAME_MAX_LENGTH = .ok () := by
  unfold is_valid_thing_name
  cases h : is_valid_name s THINGNAME_MAX_LENGTH with
  | ok u => cases u; simp
  | error e => simp

theorem is_valid_shadow_name_ok {s : List Char} :
    is_valid_shadow_name s = .ok () ↔ is_valid_name s SHADOW_NAME_LENGTH_MAX = .ok () := by
  unfold is_valid_shadow_name
  cases h : is_valid_name s SHADOW_NAME_LENGTH_MAX with
  | ok u => cases u; simp
  | error e => simp

theorem valid_thing_noSlash {s : List Char}
    (h : is_valid_thing_name s = .ok ()) : '/' ∉ s := by
  have h3 := (is_valid_name_ok.mp (is_valid_thing_name_ok.mp h)).2.2
  intro hm
  exact absurd (List.all_eq_true.mp h3 _ hm) (by decide)

theorem valid_shadow_noSlash {s : List Char}
    (h : is_valid_shadow_name s = .ok ()) : '/' ∉ s := by
  have h3 := (is_valid_name_ok.mp (is_valid_shadow_name_ok.mp h)).2.2
  intro hm
  exact absurd (List.all_eq_true.mp h3 _ hm) (by decide)

theorem is_valid_mqtt_topic_ok {t : List Char} (h1 : t ≠ [])
    (h2 : t.length < MQTT_TOPIC_LENGTH_MAX) : is_valid_mqtt_topic t = .ok () := by
  unfold is_valid_mqtt_topic is_valid_param
  rw [if_pos ⟨h1, h2⟩]

theorem topicPrelude_ok (fe : Error) (bt name r : List Char)
    (hn : is_valid_thing_name name = .ok ())
    (hlen : (PRE ++ (name ++ ('/' :: (bt ++ r)))).length < MQTT_TOPIC_LENGTH_MAX) :
    topicPrelude fe ('/' :: bt) (PRE ++ (name ++ ('/' :: (bt ++ r)))) = .ok (name, r) := by
  have hns : '/' ∉ name := valid_thing_noSlash hn
  have h1 : (PRE ++ (name ++ ('/' :: (bt ++ r)))) ≠ [] := by
    rw [show (PRE ++ (name ++ ('/' :: (bt ++ r)))) =
        '$' :: ("aws/things/".toList ++ (name ++ ('/' :: (bt ++ r)))) from rfl]
    exact List.cons_ne_nil _ _
  have hpre : is_valid_prefix (PRE ++ (name ++ ('/' :: (bt ++ r)))) AWS_THINGS_PREFIX
      = .ok (name ++ ('/' :: (bt ++ r))) := by
    unfold is_valid_prefix
    rw [show (PRE : List Char) = AWS_THINGS_PREFIX from rfl, stripPre_append]
  have hbr : is_valid_bridge ('/' :: (bt ++ r)) ('/' :: bt) = .ok r := by
    unfold is_valid_bridge
    rw [show ('/' :: (bt ++ r)) = ('/' :: bt) ++ r by simp, stripPre_append]
  unfold topicPrelude
  simp only [is_valid_mqtt_topic_ok h1 hlen, hpre,
    splitAtSlash_append (bt ++ r) hns, hn, hbr]

theorem shadow_match_eq (name r : List Char)
    (hn : is_valid_thing_name name = .ok ())
    (hlen : (PRE ++ (name ++ (SHADOW_API_BRIDGE ++ r))).length < MQTT_TOPIC_LENGTH_MAX) :
    shadow.match_topic (PRE ++ (name ++ (SHADOW_API_BRIDGE ++ r))) =
      shadow.shadowDispatch name (splitSlash r) := by
  unfold shadow.match_topic
  rw [show (SHADOW_API_BRIDGE : List Char) = '/' :: "shadow/".toList from rfl,
    List.cons_append,
    topicPrelude_ok .NoMatch ("shadow/".toList) name r hn hlen]

theorem jobs_match_eq (name r : List Char)
    (hn : is_valid_thing_name name = .ok ())
    (hlen : (PRE ++ (name ++ (JOBS_API_BRIDGE ++ r))).length < MQTT_TOPIC_LENGTH_MAX) :
    jobs.match_topic (PRE ++ (name ++ (JOBS_API_BRIDGE ++ r))) =
      jobs.jobsDispatch name (splitSlash r) := by
  unfold jobs.match_topic
  rw [show (JOBS_API_BRIDGE : List Char) = '/' :: "jobs/".toList from rfl,
    List.cons_append,
    topicPrelude_ok .FAIL ("jobs/".toList) name r hn hlen]

theorem defender_match_eq (name r : List Char)
    (hn : is_valid_thing_name name = .ok ())
    (hlen : (PRE ++ (name ++ (defender.API_BRIDGE ++ r))).length < MQTT_TOPIC_LENGTH_MAX) :
    defender.match_topic (PRE ++ (name ++ (defender.API_BRIDGE ++ r))) =
      defender.defenderDispatch name (splitSlash r) := by
  unfold defender.match_topic
  rw [show (defender.API_BRIDGE : List Char) = '/' :: "defender/metrics/".toList from rfl,
    List.cons_append,
    topicPrelude_ok .FAIL ("defender/metrics/".toList) name r hn hlen]

theorem backoff_next_eq {mx bs pw vl : Nat} {rd : Option Nat} (hp : 0 < pw) :
    BackoffAlgorithm.next ⟨mx, bs, pw, vl, rd⟩ =
      .ret ((if (pw + rd.getD 0 % pw) % USIZE_MOD ≤ mx
          then some ((pw + rd.getD 0 % pw) % USIZE_MOD) else none),
        ⟨mx, bs, (pw + pw) % USIZE_MOD, (pw + rd.getD 0 % pw) % USIZE_MOD, rd⟩) := by
  unfold BackoffAlgorithm.next
  simp [Nat.pos_iff_ne_zero.mp hp]

theorem two_le_two_pow_succ (k : Nat) : (2 : Nat) ≤ 2 ^ (k + 1) := by
  calc (2 : Nat) = 2 ^ 1 := rfl
    _ ≤ 2 ^ (k + 1) := Nat.pow_le_pow_right (by decide) (by omega)

theorem double_le_mul_two_pow_succ (pw k : Nat) : pw + pw ≤ pw * 2 ^ (k + 1) := by
  calc pw + pw = pw * 2 := by ring
    _ ≤ pw * 2 ^ (k + 1) := Nat.mul_le_mul_left pw (two_le_two_pow_succ k)

theorem iterateB_zero_jitter (k mx bs pw vl : Nat) (hp : 0 < pw)
    (hov : pw * 2 ^ k < USIZE_MOD) :
    iterateB k ⟨mx, bs, pw, vl, none⟩ =
      .ret ⟨mx, bs, pw * 2 ^ k, if k = 0 then vl else pw * 2 ^ (k - 1), none⟩ := by
  induction k generalizing pw vl with
  | zero => simp [iterateB]
  | succ k ih =>
    have h2pw : pw + pw ≤ pw * 2 ^ (k + 1) := double_le_mul_two_pow_succ pw k
    have h2pw_lt : pw + pw < USIZE_MOD := lt_of_le_of_lt h2pw hov
    have hpw_lt : pw < USIZE_MOD := by omega
    have hstep : iterateB (k + 1) (⟨mx, bs, pw, vl, none⟩ : BackoffAlgorithm) =
        iterateB k ⟨mx, bs, pw + pw, pw, none⟩ := by
      show (match BackoffAlgorithm.next ⟨mx, bs, pw, vl, none⟩ with
        | .panics => (.panics : PanicOr BackoffAlgorithm)
        | .ret (_, b') => iterateB k b') = _
      rw [backoff_next_eq hp]
      simp [Nat.mod_eq_of_lt hpw_lt, Nat.mod_eq_of_lt h2pw_lt]
    have hov2 : (pw + pw) * 2 ^ k < USIZE_MOD := by
      rw [show (pw + pw) * 2 ^ k = pw * 2 ^ (k + 1) from by ring]
      exact hov
    rw [hstep, ih (pw + pw) pw (by omega) hov2]
    simp only [PanicOr.ret.injEq, BackoffAlgorithm.mk.injEq, Nat.succ_ne_zero, if_false,
      Nat.add_sub_cancel, and_true, true_and]
    constructor
    · ring
    · cases k with
      | zero => simp
      | succ j =>
        simp only [Nat.succ_ne_zero, if_false, Nat.succ_sub_one]
        ring

theorem backoff_next_ne_panics {b : BackoffAlgorithm} (hp : 0 < b.power) :
    b.next ≠ .panics := by
  unfold BackoffAlgorithm.next
  simp [Nat.pos_iff_ne_zero.mp hp]

theorem iterateB_power (k : Nat) :
    ∀ b : BackoffAlgorithm, 0 < b.power → b.power * 2 ^ k < USIZE_MOD →
      ∃ b', iterateB k b = .ret b' ∧ b'.power = b.power * 2 ^ k := by
  induction k with
  | zero => intro b hp _; exact ⟨b, rfl, by simp⟩
  | succ k ih =>
    intro b hp hov
    obtain ⟨mx, bs, pw, vl, rd⟩ := b
    simp only at hp hov
    have h2pw : pw + pw ≤ pw * 2 ^ (k + 1) := double_le_mul_two_pow_succ pw k
    have hmod : (pw + pw) % USIZE_MOD = pw + pw :=
      Nat.mod_eq_of_lt (lt_of_le_of_lt h2pw hov)
    have hstep : iterateB (k + 1) (⟨mx, bs, pw, vl, rd⟩ : BackoffAlgorithm) =
        iterateB k ⟨mx, bs, pw + pw, (pw + rd.getD 0 % pw) % USIZE_MOD, rd⟩ := by
      show (match BackoffAlgorithm.next ⟨mx, bs, pw, vl, rd⟩ with
        | .panics => (.panics : PanicOr BackoffAlgorithm)
        | .ret (_, b') => iterateB k b') = _
      rw [backoff_next_eq hp, hmod]
    have hov2 : (pw + pw) * 2 ^ k < USIZE_MOD := by
      rw [show (pw + pw) * 2 ^ k = pw * 2 ^ (k + 1) from by ring]
      exact hov
    obtain ⟨b', h1, h2⟩ := ih ⟨mx, bs, pw + pw, (pw + rd.getD 0 % pw) % USIZE_MOD, rd⟩
      (by simp; omega) (by simpa using hov2)
    refine ⟨b', by rw [hstep, h1], ?_⟩
    rw [h2]
    simp only
    ring

/-! ## Claim theorems -/

/-- C2: the claim states every assemble function's buffer covers the
worst-case topic length and assembly never panics on capacity overflow.
The code violates this: `jobs::get_pending` writes into an
`ArrayString<THINGNAME_MAX_LENGTH>` (128) buffer, which a valid 110-char
thing name overflows (topic length 131), and even
`shadow::assemble_topic`'s `SHADOW_TOPIC_MAX_LENGTH` (224) buffer is
overflowed by the worst case (127-char thing name, 63-char shadow name,
`update/documents`: 232 chars).  Both evaluations panic. -/
theorem C2_capacity_overflow_bug :
    jobs.get_pending (List.replicate 110 'a') = .panics ∧
    shadow.assemble_topic .UpdateDocuments (List.replicate 127 'a')
      (some (List.replicate 63 'b')) = .panics := ⟨rfl, rfl⟩

/-- C3: the claim states every parse path returns a typed failure and
never panics, in particular `jobs::match_topic` on an over-length job-id
segment.  The code violates this: the job-id segment is copied with
`ArrayString::<JOBID_MAX_LENGTH>::from(id).unwrap()`, which panics for a
65-char segment, and the `collect` into an `ArrayVec<&str, 16>` panics
for a shadow topic with 17 post-bridge segments. -/
theorem C3_parse_panics_bug :
    jobs.match_topic (("$aws/things/chloe/jobs/".toList) ++
      (List.replicate 65 'a' ++ "/update/accepted".toList)) = .panics ∧
    shadow.match_topic
      ("$aws/things/chloe/shadow/a/a/a/a/a/a/a/a/a/a/a/a/a/a/a/a/a".toList) =
      .panics := ⟨rfl, rfl⟩

/-- C1 counterexample: `defender::get_topic` with `JsonReportPublish`
(a message type of the defender protocol, with a valid identifier)
produces `$aws/things/chloe/defender/metrics/json`, which
`defender::match_topic` rejects with `NoMatch` instead of returning the
original message type, refuting the round-trip claim for defender. -/
theorem C1_defender_publish_cex :
    defender.get_topic ("chloe".toList) .JsonReportPublish =
      .ret (.ok ("$aws/things/chloe/defender/metrics/json".toList)) ∧
    defender.match_topic ("$aws/things/chloe/defender/metrics/json".toList) =
      .ret (.error .NoMatch) := ⟨rfl, rfl⟩

/-- C4 counterexample: assembling with the length-0 job id `""` (via
`jobs::update`, with a valid thing name) fails with the generic `FAIL`
kind, not with `JobsIdParseFailed` as the claim requires. -/
theorem C4_empty_job_id_cex :
    jobs.update ("chloe".toList) [] = .ret (.error .FAIL) ∧
    Error.FAIL ≠ Error.JobsIdParseFailed := ⟨rfl, by decide⟩

/-- C5 counterexample: for the defender topic
`$aws/things/chloe/defender/metrics/xml/accepted` the remainder matches
the protocol's arity-2 shape but `xml` is not a known operation token;
`defender::match_topic` returns `NoMatch`, not the
`MessageTypeParseFailed` the claim requires. -/
theorem C5_defender_unknown_op_cex :
    defender.match_topic ("$aws/things/chloe/defender/metrics/xml/accepted".toList) =
      .ret (.error .NoMatch) ∧
    Error.NoMatch ≠ Error.MessageTypeParseFailed := ⟨rfl, by decide⟩

theorem nameChar_iff {c : Char} : nameChar c = true ↔ specNameAlphabet c := by
  unfold nameChar specNameAlphabet
  split <;> simp_all

theorem jobChar_iff {c : Char} : jobChar c = true ↔ specJobIdAlphabet c := by
  unfold jobChar specJobIdAlphabet
  split <;> simp_all

theorem valid_name_characterization {s : List Char} {m : Nat} :
    is_valid_name s m = .ok () ↔
      (0 < s.length ∧ s.length < m ∧ ∀ c ∈ s, specNameAlphabet c) := by
  rw [is_valid_name_ok]
  constructor
  · rintro ⟨h1, h2, h3⟩
    exact ⟨List.length_pos.mpr h1, h2,
      fun c hc => nameChar_iff.mp (List.all_eq_true.mp h3 c hc)⟩
  · rintro ⟨h1, h2, h3⟩
    exact ⟨List.length_pos.mp h1, h2,
      List.all_eq_true.mpr fun c hc => nameChar_iff.mpr (h3 c hc)⟩

/-- C6: a string is accepted by the identifier validator with bound `max`
iff it is nonempty, shorter than `max`, and drawn entirely from the
permitted alphabet (`[A-Za-z0-9_:-]` for thing/shadow names,
`[A-Za-z0-9_-]` for job ids); conversely every empty, over-length, or
out-of-alphabet string is rejected. -/
theorem C6_validator_characterization (s : List Char) :
    (is_valid_thing_name s = .ok () ↔
      0 < s.length ∧ s.length < THINGNAME_MAX_LENGTH ∧ ∀ c ∈ s, specNameAlphabet c) ∧
    (is_valid_shadow_name s = .ok () ↔
      0 < s.length ∧ s.length < SHADOW_NAME_LENGTH_MAX ∧ ∀ c ∈ s, specNameAlphabet c) ∧
    (is_valid_job_id s = .ok () ↔
      0 < s.length ∧ s.length < JOBID_MAX_LENGTH ∧ ∀ c ∈ s, specJobIdAlphabet c) := by
  refine ⟨?_, ?_, ?_⟩
  · rw [is_valid_thing_name_ok]; exact valid_name_characterization
  · rw [is_valid_shadow_name_ok]; exact valid_name_characterization
  · rw [is_valid_job_id_ok]
    constructor
    · rintro ⟨h1, h2, h3⟩
      exact ⟨List.length_pos.mpr h1, h2,
        fun c hc => jobChar_iff.mp (List.all_eq_true.mp h3 c hc)⟩
    · rintro ⟨h1, h2, h3⟩
      exact ⟨List.length_pos.mp h1, h2,
        List.all_eq_true.mpr fun c hc => jobChar_iff.mpr (h3 c hc)⟩

/-- C6 witness: the validator characterization evaluated at the concrete
name `chloe`. -/
theorem C6_witness : is_valid_thing_name ("chloe".toList) = .ok () :=
  (C6_validator_characterization ("chloe".toList)).1.mpr (by decide)

/-- C8 counterexample: the claim's universally quantified doubling and
strict monotonicity fail once the `usize` doubling wraps.  With
`base = 3 * 2^62`, `max = 2^64 - 1` (`usize::MAX`) and zero jitter, the
first advance produces `3 * 2^62` and `power` wraps to `2^63`; the second
advance then produces `2^63`, which is smaller than the previous value —
where the claim requires `2 * base = 3 * 2^63` or, since that exceeds
`max`, exhaustion. -/
theorem C8_overflow_cex :
    (BackoffAlgorithm.new (3 * 2 ^ 62) (2 ^ 64 - 1) none).next =
      .ret (some (3 * 2 ^ 62),
        ⟨2 ^ 64 - 1, 3 * 2 ^ 62, 2 ^ 63, 3 * 2 ^ 62, none⟩) ∧
    (⟨2 ^ 64 - 1, 3 * 2 ^ 62, 2 ^ 63, 3 * 2 ^ 62, none⟩ : BackoffAlgorithm).next =
      .ret (some (2 ^ 63), ⟨2 ^ 64 - 1, 3 * 2 ^ 62, 0, 2 ^ 63, none⟩) ∧
    2 ^ 63 < 3 * 2 ^ 62 := ⟨rfl, rfl, by norm_num⟩

/-- C8 (amended): with zero jitter and `base > 0`, on every advance for
which the doubling has not overflowed `usize`
(`base * 2^(k+1) < 2^64`), the `k`-th advance produces exactly
`base * 2^k` when that value is at most `max` (so produced values
strictly double and never exceed `max`), reports exhaustion (`none`) as
soon as the computed value exceeds `max`, and in either case the
post-step state holds the computed value, inspectable via `get`.  Beyond
the overflow point the wrapped sequence is not monotone (see the
counterexample). -/
theorem C8_backoff_doubling (base mx k : Nat) (h : 0 < base)
    (hov : base * 2 ^ (k + 1) < USIZE_MOD) :
    ∃ bk : BackoffAlgorithm,
      iterateB k (BackoffAlgorithm.new base mx none) = .ret bk ∧
      bk.next = .ret ((if base * 2 ^ k ≤ mx then some (base * 2 ^ k) else none),
        ⟨mx, base, base * 2 ^ (k + 1), base * 2 ^ k, none⟩) ∧
      (⟨mx, base, base * 2 ^ (k + 1), base * 2 ^ k, none⟩ : BackoffAlgorithm).get
        = base * 2 ^ k ∧
      base * 2 ^ k < base * 2 ^ (k + 1) := by
  have hle : base * 2 ^ k ≤ base * 2 ^ (k + 1) :=
    Nat.mul_le_mul_left base (Nat.pow_le_pow_right (by decide) (by omega))
  have hklt : base * 2 ^ k < USIZE_MOD := lt_of_le_of_lt hle hov
  refine ⟨⟨mx, base, base * 2 ^ k, if k = 0 then base else base * 2 ^ (k - 1), none⟩,
    ?_, ?_, rfl, ?_⟩
  · exact iterateB_zero_jitter k mx base base base h hklt
  · have hp : 0 < base * 2 ^ k := by positivity
    rw [backoff_next_eq hp]
    have e : (base * 2 ^ k + base * 2 ^ k) % USIZE_MOD = base * 2 ^ (k + 1) := by
      rw [show base * 2 ^ k + base * 2 ^ k = base * 2 ^ (k + 1) from by ring]
      exact Nat.mod_eq_of_lt hov
    simp only [Option.getD_none, Nat.zero_mod, Nat.add_zero, e,
      Nat.mod_eq_of_lt hklt]
  · have h2 : (2 : Nat) ^ k < 2 ^ (k + 1) := Nat.pow_lt_pow_succ (by decide)
    exact mul_lt_mul_of_pos_left h2 h

/-- C8 witness: the doubling theorem instantiated at
`new(base = 1, max = 16)` after five advances: the sixth computed value
is 32, exceeding `max`, so the step yields `none` while the state keeps
`value = 32`. -/
theorem C8_witness :
    ∃ bk : BackoffAlgorithm,
      iterateB 5 (BackoffAlgorithm.new 1 16 none) = .ret bk ∧
      bk.next = .ret ((if 1 * 2 ^ 5 ≤ 16 then some (1 * 2 ^ 5) else none),
        ⟨16, 1, 1 * 2 ^ (5 + 1), 1 * 2 ^ 5, none⟩) ∧
      (⟨16, 1, 1 * 2 ^ (5 + 1), 1 * 2 ^ 5, none⟩ : BackoffAlgorithm).get = 1 * 2 ^ 5 ∧
      1 * 2 ^ 5 < 1 * 2 ^ (5 + 1) :=
  C8_backoff_doubling 1 16 5 (by decide) (by decide)

/-- C10 counterexample: the claim's "no division-by-zero branch is
reachable for `base > 0`" fails under wrapping `usize` arithmetic: from
`new(base = 1, max = usize::MAX)` the 64th advance wraps `power` to
`2^64 mod 2^64 = 0`, so the 65th advance performs a modulo by zero and
panics. -/
theorem C10_overflow_cex :
    iterateB 64 (BackoffAlgorithm.new 1 (2 ^ 64 - 1) none) =
      .ret ⟨2 ^ 64 - 1, 1, 0, 2 ^ 63, none⟩ ∧
    iterateB 65 (BackoffAlgorithm.new 1 (2 ^ 64 - 1) none) = .panics := ⟨rfl, rfl⟩

/-- C10 (amended): advancing the generator computes `rand % power`, so
`base > 0` is an unstated precondition: a generator created with
`base = 0` panics (modulo by zero) on its first advance; for `base > 0`
the divisor `power` stays positive and no division-by-zero occurs on
every advance made before the doubling overflows `usize`
(`base * 2^k < 2^64`).  Once `power` wraps to zero — after 64 advances
with `base = 1` — the next advance does divide by zero (see the
counterexample). -/
theorem C10_backoff_zero_base (base mx k : Nat) (rand : Option Nat) (h : 0 < base)
    (hov : base * 2 ^ k < USIZE_MOD) :
    (BackoffAlgorithm.new 0 mx rand).next = .panics ∧
    ∃ bk, iterateB k (BackoffAlgorithm.new base mx rand) = .ret bk ∧
      0 < bk.power ∧ bk.next ≠ .panics := by
  constructor
  · rfl
  · obtain ⟨bk, h1, h2⟩ := iterateB_power k (BackoffAlgorithm.new base mx rand)
      (by simpa [BackoffAlgorithm.new] using h)
      (by simpa [BackoffAlgorithm.new] using hov)
    have hb : (BackoffAlgorithm.new base mx rand).power = base := rfl
    rw [hb] at h2
    have hp : 0 < bk.power := by rw [h2]; positivity
    exact ⟨bk, h1, hp, backoff_next_ne_panics hp⟩

/-- C10 witness: the zero-base panic and the positive-base
pre-overflow safety instantiated at `base = 1`, `max = 7`, jitter source
`some 5`, three advances. -/
theorem C10_witness :
    (BackoffAlgorithm.new 0 7 (some 5)).next = .panics ∧
    ∃ bk, iterateB 3 (BackoffAlgorithm.new 1 7 (some 5)) = .ret bk ∧
      0 < bk.power ∧ bk.next ≠ .panics :=
  C10_backoff_zero_base 1 7 3 (some 5) (by decide) (by decide)

/-- C7: for every well-formed topic `$aws/things/<valid-name>/<rest>` the
classifier tests the remainder against the bridge literals in the fixed
priority order named-shadow, classic-shadow, jobs, defender, tunneling,
returning the first match (for any remainder, parsed or not) and
`NoMatch` when no known bridge matches; the named-shadow bridge is a
prefix-superset of the classic one, so the ordering makes the result
unique. -/
theorem C7_classifier_order (name rest : List Char)
    (hn : is_valid_thing_name name = .ok ())
    (hlen : (PRE ++ (name ++ ('/' :: rest))).length < MQTT_TOPIC_LENGTH_MAX) :
    (match_topic_type (PRE ++ (name ++ ('/' :: rest))) =
      (if startsWith ('/' :: rest) NAMED_SHADOW_API_BRIDGE then .ok .NamedShadow
       else if startsWith ('/' :: rest) SHADOW_API_BRIDGE then .ok .Shadow
       else if startsWith ('/' :: rest) JOBS_API_BRIDGE then .ok .Jobs
       else if startsWith ('/' :: rest) DEFENDER_API_BRIDGE then .ok .Defender
       else if startsWith ('/' :: rest) TUNNELS_API_BRIDGE then .ok .Tunneling
       else .error .NoMatch)) ∧
    (∀ s : List Char, startsWith s NAMED_SHADOW_API_BRIDGE = true →
      startsWith s SHADOW_API_BRIDGE = true) := by
  constructor
  · have hns := valid_thing_noSlash hn
    have h1 : (PRE ++ (name ++ ('/' :: rest))) ≠ [] := by
      rw [show (PRE ++ (name ++ ('/' :: rest))) =
          '$' :: ("aws/things/".toList ++ (name ++ ('/' :: rest))) from rfl]
      exact List.cons_ne_nil _ _
    have hpre : is_valid_prefix (PRE ++ (name ++ ('/' :: rest))) AWS_THINGS_PREFIX
        = .ok (name ++ ('/' :: rest)) := by
      unfold is_valid_prefix
      rw [show (PRE : List Char) = AWS_THINGS_PREFIX from rfl, stripPre_append]
    unfold match_topic_type
    simp only [is_valid_mqtt_topic_ok h1 hlen, hpre, splitAtSlash_append rest hns, hn]
  · intro s hsw
    unfold startsWith at hsw ⊢
    obtain ⟨r, hr⟩ := Option.isSome_iff_exists.mp hsw
    have hs : s = NAMED_SHADOW_API_BRIDGE ++ r := stripPre_eq_some.mp hr
    subst hs
    rw [show NAMED_SHADOW_API_BRIDGE ++ r =
        SHADOW_API_BRIDGE ++ ("name/".toList ++ r) from rfl, stripPre_append]
    rfl

/-- C7 witness: the classifier theorem at the concrete named-shadow topic
`$aws/things/chloe/shadow/name/common/get/rejected`. -/
theorem C7_witness :
    (match_topic_type (PRE ++ ("chloe".toList ++
        ('/' :: "shadow/name/common/get/rejected".toList))) =
      (if startsWith ('/' :: "shadow/name/common/get/rejected".toList)
          NAMED_SHADOW_API_BRIDGE then .ok .NamedShadow
       else if startsWith ('/' :: "shadow/name/common/get/rejected".toList)
          SHADOW_API_BRIDGE then .ok .Shadow
       else if startsWith ('/' :: "shadow/name/common/get/rejected".toList)
          JOBS_API_BRIDGE then .ok .Jobs
       else if startsWith ('/' :: "shadow/name/common/get/rejected".toList)
          DEFENDER_API_BRIDGE then .ok .Defender
       else if startsWith ('/' :: "shadow/name/common/get/rejected".toList)
          TUNNELS_API_BRIDGE then .ok .Tunneling
       else .error .NoMatch)) ∧
    (∀ s : List Char, startsWith s NAMED_SHADOW_API_BRIDGE = true →
      startsWith s SHADOW_API_BRIDGE = true) :=
  C7_classifier_order ("chloe".toList) ("shadow/name/common/get/rejected".toList)
    rfl (by decide)

/-- C9: `shadow::match_topic` never compares the first post-bridge segment
with the literal `name`: for any segment value in that position (here the
arbitrary slash-free `seg1`), a 4-segment or 3-segment remainder parses
as a named-shadow topic whose shadow name is the second segment. -/
theorem C9_shadow_ignores_name_literal
    (name seg1 sn o f : List Char) (t4 t3 : shadow.Topic)
    (hn : is_valid_thing_name name = .ok ())
    (h1 : '/' ∉ seg1)
    (hsn : is_valid_shadow_name sn = .ok ())
    (ho : '/' ∉ o) (hf : '/' ∉ f)
    (hf4 : shadow.find_message_type o (some f) = .ok t4)
    (hf3 : shadow.find_message_type o none = .ok t3)
    (hlen4 : (PRE ++ (name ++ (SHADOW_API_BRIDGE ++
        (seg1 ++ '/' :: (sn ++ '/' :: (o ++ '/' :: f)))))).length
        < MQTT_TOPIC_LENGTH_MAX)
    (hlen3 : (PRE ++ (name ++ (SHADOW_API_BRIDGE ++
        (seg1 ++ '/' :: (sn ++ '/' :: o))))).length < MQTT_TOPIC_LENGTH_MAX) :
    shadow.match_topic (PRE ++ (name ++ (SHADOW_API_BRIDGE ++
        (seg1 ++ '/' :: (sn ++ '/' :: (o ++ '/' :: f)))))) =
      .ret (.ok ⟨name, some sn, t4⟩) ∧
    shadow.match_topic (PRE ++ (name ++ (SHADOW_API_BRIDGE ++
        (seg1 ++ '/' :: (sn ++ '/' :: o))))) =
      .ret (.ok ⟨name, some sn, t3⟩) := by
  have hsns := valid_shadow_noSlash hsn
  constructor
  · rw [shadow_match_eq name _ hn hlen4,
      splitSlash_append _ h1, splitSlash_append _ hsns, splitSlash_append _ ho,
      splitSlash_single hf]
    unfold shadow.shadowDispatch
    rw [if_pos (by simp)]
    simp only [hsn, hf4]
  · rw [shadow_match_eq name _ hn hlen3,
      splitSlash_append _ h1, splitSlash_append _ hsns, splitSlash_single ho]
    unfold shadow.shadowDispatch
    rw [if_pos (by simp)]
    simp only [hsn, hf3]

/-- C9 witness: the topic
`$aws/things/chloe/shadow/bogus/common/get/accepted` (and its 3-segment
form) parses as a named shadow with shadow name `common` even though the
first segment is `bogus`, not `name`. -/
theorem C9_witness :
    shadow.match_topic (PRE ++ ("chloe".toList ++ (SHADOW_API_BRIDGE ++
        ("bogus".toList ++ '/' :: ("common".toList ++ '/' ::
          ("get".toList ++ '/' :: "accepted".toList)))))) =
      .ret (.ok ⟨"chloe".toList, some ("common".toList), .GetAccepted⟩) ∧
    shadow.match_topic (PRE ++ ("chloe".toList ++ (SHADOW_API_BRIDGE ++
        ("bogus".toList ++ '/' :: ("common".toList ++ '/' :: "get".toList))))) =
      .ret (.ok ⟨"chloe".toList, some ("common".toList), .Get⟩) :=
  C9_shadow_ignores_name_literal ("chloe".toList) ("bogus".toList)
    ("common".toList) ("get".toList) ("accepted".toList) .GetAccepted .Get
    rfl (by decide) rfl (by decide) (by decide) rfl rfl (by decide) (by decide)

theorem is_valid_job_id_FAIL {s : List Char}
    (h : s = [] ∨ JOBID_MAX_LENGTH ≤ s.length) :
    is_valid_job_id s = .error .FAIL := by
  unfold is_valid_job_id is_valid_param
  have hneg : ¬(s ≠ [] ∧ s.length < JOBID_MAX_LENGTH) := by
    rcases h with h | h
    · exact fun hh => hh.1 h
    · exact fun hh => absurd hh.2 (by omega)
  rw [if_neg hneg]

/-- C4 (amended): invalid thing and shadow names always fail with their
identifier-specific kinds, and a job id containing an out-of-alphabet
character fails with `JobsIdParseFailed`; but an empty or over-length job
id fails with the generic `FAIL` kind (in the validator and hence in
assembly via `jobs::update`), contrary to the original claim. -/
theorem C4_amended_error_kinds (s : List Char) :
    ((s = [] ∨ THINGNAME_MAX_LENGTH ≤ s.length ∨ ¬ ∀ c ∈ s, specNameAlphabet c) →
      is_valid_thing_name s = .error .ThingnameParseFailed) ∧
    ((s = [] ∨ SHADOW_NAME_LENGTH_MAX ≤ s.length ∨ ¬ ∀ c ∈ s, specNameAlphabet c) →
      is_valid_shadow_name s = .error .ShadownameParseFailed) ∧
    ((s ≠ [] ∧ s.length < JOBID_MAX_LENGTH ∧ ¬ ∀ c ∈ s, specJobIdAlphabet c) →
      is_valid_job_id s = .error .JobsIdParseFailed) ∧
    ((s = [] ∨ JOBID_MAX_LENGTH ≤ s.length) →
      is_valid_job_id s = .error .FAIL) ∧
    (∀ name : List Char, is_valid_thing_name name = .ok () →
      (s = [] ∨ JOBID_MAX_LENGTH ≤ s.length) →
      jobs.update name s = .ret (.error .FAIL)) := by
  refine ⟨?_, ?_, ?_, fun h => is_valid_job_id_FAIL h, ?_⟩
  · intro h
    unfold is_valid_thing_name
    cases hv : is_valid_name s THINGNAME_MAX_LENGTH with
    | error e => rfl
    | ok u =>
      cases u
      obtain ⟨k1, k2, k3⟩ := valid_name_characterization.mp hv
      rcases h with h | h | h
      · subst h; simp at k1
      · omega
      · exact absurd k3 h
  · intro h
    unfold is_valid_shadow_name
    cases hv : is_valid_name s SHADOW_NAME_LENGTH_MAX with
    | error e => rfl
    | ok u =>
      cases u
      obtain ⟨k1, k2, k3⟩ := valid_name_characterization.mp hv
      rcases h with h | h | h
      · subst h; simp at k1
      · omega
      · exact absurd k3 h
  · rintro ⟨h1, h2, h3⟩
    unfold is_valid_job_id is_valid_param
    rw [if_pos ⟨h1, h2⟩]
    show (if s.all jobChar then (Except.ok () : Except Error Unit)
      else .error .JobsIdParseFailed) = _
    rw [if_neg (fun hall =>
      h3 fun c hc => jobChar_iff.mp (List.all_eq_true.mp hall c hc))]
  · intro name hn h
    simp only [jobs.update, hn, is_valid_job_id_FAIL h]

/-- C4 witness: the amended error-kind theorem at concrete invalid
identifiers of each class. -/
theorem C4_witness :
    is_valid_thing_name ("na me".toList) = .error .ThingnameParseFailed ∧
    is_valid_shadow_name [] = .error .ShadownameParseFailed ∧
    is_valid_job_id ("a:b".toList) = .error .JobsIdParseFailed ∧
    is_valid_job_id [] = .error .FAIL ∧
    jobs.update ("chloe".toList) [] = .ret (.error .FAIL) :=
  ⟨(C4_amended_error_kinds ("na me".toList)).1 (Or.inr (Or.inr (by decide))),
   (C4_amended_error_kinds []).2.1 (Or.inl rfl),
   (C4_amended_error_kinds ("a:b".toList)).2.2.1 ⟨by decide, by decide, by decide⟩,
   (C4_amended_error_kinds []).2.2.2.1 (Or.inl rfl),
   (C4_amended_error_kinds []).2.2.2.2 ("chloe".toList) rfl (Or.inl rfl)⟩

/-- C5 (amended): when the post-bridge remainder matches an arity-2 shape
with token values outside the known table, shadow alone fails with
`MessageTypeParseFailed`; jobs and defender instead fail with `NoMatch`,
contrary to the original claim. -/
theorem C5_amended_unknown_tokens :
    (∀ name o f : List Char, is_valid_thing_name name = .ok () →
      '/' ∉ o → '/' ∉ f →
      (PRE ++ (name ++ (SHADOW_API_BRIDGE ++ (o ++ '/' :: f)))).length
        < MQTT_TOPIC_LENGTH_MAX →
      shadow.find_message_type o (some f) = .error .MessageTypeParseFailed →
      shadow.match_topic (PRE ++ (name ++ (SHADOW_API_BRIDGE ++ (o ++ '/' :: f)))) =
        .ret (.error .MessageTypeParseFailed)) ∧
    (∀ name o f : List Char, is_valid_thing_name name = .ok () →
      '/' ∉ o → '/' ∉ f →
      (PRE ++ (name ++ (JOBS_API_BRIDGE ++ (o ++ '/' :: f)))).length
        < MQTT_TOPIC_LENGTH_MAX →
      ¬(o = jobs.API_GETPENDING ∧ f = ACCEPTED) →
      ¬(o = jobs.API_GETPENDING ∧ f = REJECTED) →
      ¬(o = jobs.API_STARTNEXT ∧ f = ACCEPTED) →
      ¬(o = jobs.API_STARTNEXT ∧ f = REJECTED) →
      jobs.match_topic (PRE ++ (name ++ (JOBS_API_BRIDGE ++ (o ++ '/' :: f)))) =
        .ret (.error .NoMatch)) ∧
    (∀ name o f : List Char, is_valid_thing_name name = .ok () →
      '/' ∉ o → '/' ∉ f →
      (PRE ++ (name ++ (defender.API_BRIDGE ++ (o ++ '/' :: f)))).length
        < MQTT_TOPIC_LENGTH_MAX →
      ¬(o = defender.API_JSON_FORMAT ∧ f = ACCEPTED) →
      ¬(o = defender.API_JSON_FORMAT ∧ f = REJECTED) →
      ¬(o = defender.API_CBOR_FORMAT ∧ f = ACCEPTED) →
      ¬(o = defender.API_CBOR_FORMAT ∧ f = REJECTED) →
      defender.match_topic (PRE ++ (name ++ (defender.API_BRIDGE ++ (o ++ '/' :: f)))) =
        .ret (.error .NoMatch)) := by
  refine ⟨?_, ?_, ?_⟩
  · intro name o f hn ho hf hlen hfind
    rw [shadow_match_eq name _ hn hlen, splitSlash_append _ ho, splitSlash_single hf]
    unfold shadow.shadowDispatch
    rw [if_pos (by simp)]
    simp only [hfind]
  · intro name o f hn ho hf hlen hA hB hC hD
    rw [jobs_match_eq name _ hn hlen, splitSlash_append _ ho, splitSlash_single hf]
    unfold jobs.jobsDispatch
    rw [if_pos (by simp)]
    simp only [if_neg hA, if_neg hB, if_neg hC, if_neg hD]
  · intro name o f hn ho hf hlen hA hB hC hD
    rw [defender_match_eq name _ hn hlen, splitSlash_append _ ho, splitSlash_single hf]
    unfold defender.defenderDispatch
    rw [if_pos (by simp)]
    simp only [if_neg hA, if_neg hB, if_neg hC, if_neg hD]

/-- C5 witness: the amended theorem at concrete unknown-token topics for
each of the three protocols. -/
theorem C5_witness :
    shadow.match_topic (PRE ++ ("chloe".toList ++
        (SHADOW_API_BRIDGE ++ ("frob".toList ++ '/' :: "accepted".toList)))) =
      .ret (.error .MessageTypeParseFailed) ∧
    jobs.match_topic (PRE ++ ("chloe".toList ++
        (JOBS_API_BRIDGE ++ ("frob".toList ++ '/' :: "accepted".toList)))) =
      .ret (.error .NoMatch) ∧
    defender.match_topic (PRE ++ ("chloe".toList ++
        (defender.API_BRIDGE ++ ("xml".toList ++ '/' :: "accepted".toList)))) =
      .ret (.error .NoMatch) :=
  ⟨C5_amended_unknown_tokens.1 ("chloe".toList) ("frob".toList) ("accepted".toList)
      rfl (by decide) (by decide) (by decide) rfl,
   C5_amended_unknown_tokens.2.1 ("chloe".toList) ("frob".toList) ("accepted".toList)
      rfl (by decide) (by decide) (by decide)
      (by decide) (by decide) (by decide) (by decide),
   C5_amended_unknown_tokens.2.2 ("chloe".toList) ("xml".toList) ("accepted".toList)
      rfl (by decide) (by decide) (by decide)
      (by decide) (by decide) (by decide) (by decide)⟩

theorem shadow_parse_classic (t : shadow.Topic) (name : List Char)
    (hn : is_valid_thing_name name = .ok ())
    (hlen : (PRE ++ (name ++ (SHADOW_API_BRIDGE ++
        (shadow.op t ++ shadow.suffix t)))).length < MQTT_TOPIC_LENGTH_MAX) :
    shadow.match_topic (PRE ++ (name ++ (SHADOW_API_BRIDGE ++
        (shadow.op t ++ shadow.suffix t)))) = .ret (.ok ⟨name, none, t⟩) := by
  rw [shadow_match_eq name _ hn hlen]
  cases t <;> rfl

theorem shadowDispatch_named4 (name nseg sn opk sfx : List Char)
    (hsn : is_valid_shadow_name sn = .ok ()) (t : shadow.Topic)
    (hfind : shadow.find_message_type opk (some sfx) = .ok t) :
    shadow.shadowDispatch name [nseg, sn, opk, sfx] = .ret (.ok ⟨name, some sn, t⟩) := by
  unfold shadow.shadowDispatch
  rw [if_pos (by simp)]
  simp only [hsn, hfind]

theorem shadowDispatch_named3 (name nseg sn opk : List Char)
    (hsn : is_valid_shadow_name sn = .ok ()) (t : shadow.Topic)
    (hfind : shadow.find_message_type opk none = .ok t) :
    shadow.shadowDispatch name [nseg, sn, opk] = .ret (.ok ⟨name, some sn, t⟩) := by
  unfold shadow.shadowDispatch
  rw [if_pos (by simp)]
  simp only [hsn, hfind]

theorem shadow_parse_named (t : shadow.Topic) (name sn : List Char)
    (hn : is_valid_thing_name name = .ok ())
    (hsn : is_valid_shadow_name sn = .ok ())
    (hlen : (PRE ++ (name ++ (NAMED_SHADOW_API_BRIDGE ++
        (sn ++ ('/' :: (shadow.op t ++ shadow.suffix t)))))).length
        < MQTT_TOPIC_LENGTH_MAX) :
    shadow.match_topic (PRE ++ (name ++ (NAMED_SHADOW_API_BRIDGE ++
        (sn ++ ('/' :: (shadow.op t ++ shadow.suffix t)))))) =
      .ret (.ok ⟨name, some sn, t⟩) := by
  have hsns := valid_shadow_noSlash hsn
  rw [show PRE ++ (name ++ (NAMED_SHADOW_API_BRIDGE ++
        (sn ++ ('/' :: (shadow.op t ++ shadow.suffix t))))) =
      PRE ++ (name ++ (SHADOW_API_BRIDGE ++ ("name".toList ++
        ('/' :: (sn ++ ('/' :: (shadow.op t ++ shadow.suffix t))))))) from rfl]
  rw [shadow_match_eq name ("name".toList ++
        ('/' :: (sn ++ ('/' :: (shadow.op t ++ shadow.suffix t))))) hn hlen,
    splitSlash_append _ (by decide : '/' ∉ "name".toList),
    splitSlash_append _ hsns]
  cases t <;> first
    | exact shadowDispatch_named3 name _ sn _ hsn _ rfl
    | exact shadowDispatch_named4 name _ sn _ _ hsn _ rfl

theorem jobs_parse (a : jobs.Topic) (name : List Char)
    (hn : is_valid_thing_name name = .ok ())
    (hlen : (PRE ++ (name ++ (JOBS_API_BRIDGE ++
        (jobs.id a ++ (jobs.op a ++ jobs.suffix a))))).length
        < MQTT_TOPIC_LENGTH_MAX) :
    ∃ r : jobs.ThingJobs,
      jobs.match_topic (PRE ++ (name ++ (JOBS_API_BRIDGE ++
        (jobs.id a ++ (jobs.op a ++ jobs.suffix a))))) = .ret (.ok r) ∧
      r.thing_name = name ∧ r.api = a := by
  rw [jobs_match_eq name _ hn hlen]
  cases a <;> exact ⟨_, rfl, rfl, rfl⟩

theorem defender_parse (a : defender.Topic) (name : List Char)
    (hn : is_valid_thing_name name = .ok ())
    (hja : a ≠ .JsonReportPublish) (hca : a ≠ .CborReportPublish)
    (hlen : (PRE ++ (name ++ (defender.API_BRIDGE ++
        (defender.op a ++ defender.suffix a)))).length < MQTT_TOPIC_LENGTH_MAX) :
    defender.match_topic (PRE ++ (name ++ (defender.API_BRIDGE ++
        (defender.op a ++ defender.suffix a)))) = .ret (.ok ⟨name, a⟩) := by
  rw [defender_match_eq name _ hn hlen]
  cases a
  · exact absurd rfl hja
  · rfl
  · rfl
  · exact absurd rfl hca
  · rfl
  · rfl

/-- C1 (amended): whenever assembly succeeds with a topic string, parsing
that string returns the original thing name (and shadow name) and message
type — for shadow (all message types, classic and named) and jobs (all
message types); for defender this holds for the four accepted/rejected
message types, while the two `ReportPublish` types assemble to suffix-less
topics that `defender::match_topic` rejects with `NoMatch`
(see the counterexample), contrary to the original claim. -/
theorem C1_roundtrip_amended :
    (∀ (t : shadow.Topic) (name : List Char) (named : Option (List Char))
        (s : List Char),
      shadow.assemble_topic t name named = .ret (.ok s) →
      shadow.match_topic s = .ret (.ok ⟨name, named, t⟩)) ∧
    (∀ (a : jobs.Topic) (name s : List Char),
      jobs.get_topic name a = .ret (.ok s) →
      ∃ r : jobs.ThingJobs, jobs.match_topic s = .ret (.ok r) ∧
        r.thing_name = name ∧ r.api = a) ∧
    (∀ (a : defender.Topic) (name s : List Char),
      a ≠ .JsonReportPublish → a ≠ .CborReportPublish →
      defender.get_topic name a = .ret (.ok s) →
      defender.match_topic s = .ret (.ok ⟨name, a⟩)) := by
  refine ⟨?_, ?_, ?_⟩
  · intro t name named s hasm
    cases hv : is_valid_thing_name name with
    | error e => simp [shadow.assemble_topic, hv] at hasm
    | ok u =>
      cases u
      cases named with
      | none =>
        cases hp : pushAll SHADOW_TOPIC_MAX_LENGTH []
            [PRE, name, SHADOW_API_BRIDGE, shadow.op t, shadow.suffix t] with
        | none => simp [shadow.assemble_topic, hv, hp] at hasm
        | some s0 =>
          have hs : s0 = s := by
            simpa [shadow.assemble_topic, hv, hp] using hasm
          subst hs
          obtain ⟨hj, hl⟩ := pushAll_some (by simp) hp
          rw [hj] at hl ⊢
          simp only [List.nil_append, List.flatten_cons, List.flatten_nil,
            List.append_nil] at hl ⊢
          exact shadow_parse_classic t name hv (lt_of_le_of_lt hl (by decide))
      | some sn =>
        cases hw : is_valid_shadow_name sn with
        | error e => simp [shadow.assemble_topic, hv, hw] at hasm
        | ok w =>
          cases w
          cases hp : pushAll SHADOW_TOPIC_MAX_LENGTH []
              [PRE, name, NAMED_SHADOW_API_BRIDGE, sn, ['/'],
                shadow.op t, shadow.suffix t] with
          | none => simp [shadow.assemble_topic, hv, hw, hp] at hasm
          | some s0 =>
            have hs : s0 = s := by
              simpa [shadow.assemble_topic, hv, hw, hp] using hasm
            subst hs
            obtain ⟨hj, hl⟩ := pushAll_some (by simp) hp
            rw [hj] at hl ⊢
            simp only [List.nil_append, List.flatten_cons, List.flatten_nil,
              List.append_nil, List.cons_append] at hl ⊢
            exact shadow_parse_named t name sn hv hw
              (lt_of_le_of_lt hl (by decide))
  · intro a name s hasm
    cases hv : is_valid_thing_name name with
    | error e => simp [jobs.get_topic, hv] at hasm
    | ok u =>
      cases u
      cases hp : pushAll JOBS_TOPIC_MAX_LENGTH []
          [PRE, name, JOBS_API_BRIDGE, jobs.id a, jobs.op a, jobs.suffix a] with
      | none => simp [jobs.get_topic, hv, hp] at hasm
      | some s0 =>
        have hs : s0 = s := by
          simpa [jobs.get_topic, hv, hp] using hasm
        subst hs
        obtain ⟨hj, hl⟩ := pushAll_some (by simp) hp
        rw [hj] at hl ⊢
        simp only [List.nil_append, List.flatten_cons, List.flatten_nil,
          List.append_nil] at hl ⊢
        exact jobs_parse a name hv (lt_of_le_of_lt hl (by decide))
  · intro a name s hja hca hasm
    cases hv : is_valid_thing_name name with
    | error e => simp [defender.get_topic, hv] at hasm
    | ok u =>
      cases u
      cases hp : pushAll DEFENDER_TOPIC_MAX_LENGTH []
          [PRE, name, defender.API_BRIDGE, defender.op a, defender.suffix a] with
      | none => simp [defender.get_topic, hv, hp] at hasm
      | some s0 =>
        have hs : s0 = s := by
          simpa [defender.get_topic, hv, hp] using hasm
        subst hs
        obtain ⟨hj, hl⟩ := pushAll_some (by simp) hp
        rw [hj] at hl ⊢
        simp only [List.nil_append, List.flatten_cons, List.flatten_nil,
          List.append_nil] at hl ⊢
        exact defender_parse a name hv hja hca (lt_of_le_of_lt hl (by decide))

/-- C1 witness: the amended round-trip theorem at the assembled classic
shadow topic `$aws/things/chloe/shadow/get`. -/
theorem C1_witness :
    shadow.match_topic ("$aws/things/chloe/shadow/get".toList) =
      .ret (.ok ⟨"chloe".toList, none, .Get⟩) :=
  C1_roundtrip_amended.1 .Get ("chloe".toList) none
    ("$aws/things/chloe/shadow/get".toList) rfl
